import Mathlib

/-!
Shallow embedding of the currency-rate converter (`currency.py`,
`currency_converter.py`).

The cached rate data is a JSON document: a dict from anchor currency code to
the raw API response for that anchor (a dict carrying a `rates` field mapping
currency code to number), or `null` when the fetch for that anchor failed, or
any other JSON value.  Python dicts iterate in insertion order and have unique
keys, so we model a dict as an association list searched front to back.
Numbers are modelled as rationals.
-/

namespace ExchangeRate

/-- A value stored under an anchor key of the rate table: either a dict that
passes the source's duck-type check `isinstance(x, dict) and "rates" in x`
(carrying the rates mapping), or JSON `null` (stored by `update_currency_rates`
for a failed fetch), or any other JSON value. -/
inductive JEntry where
  | withRates (rates : List (String × ℚ))
  | null
  | other
  deriving DecidableEq

/-- The in-memory rate table: a Python dict from anchor code to entry,
modelled as an association list in insertion order. -/
abbrev RateTable := List (String × JEntry)

/-- Python dict lookup `d[k]` / membership `k in d`, as `Option`:
scan the association list front to back. -/
def dlookup {α : Type} : List (String × α) → String → Option α
  | [], _ => none
  | (k₂, v) :: rest, k => if k₂ = k then some v else dlookup rest k

/-- The scan loop of `find_base_currency` (`currency_converter.py` lines
66-72): walk the table in iteration order and return the first anchor whose
entry is a dict with a `rates` key containing `currency`. -/
def scanBase : List (String × JEntry) → String → Option String
  | [], _ => none
  | (base_currency, currency_data) :: rest, currency =>
    match currency_data with
    | JEntry.withRates rs =>
        if (dlookup rs currency).isSome then some base_currency
        else scanBase rest currency
    | _ => scanBase rest currency

/-- `find_base_currency(data, currency)` (`currency_converter.py` lines
51-72): if `currency` is a top-level key of `data`, return `currency` itself;
otherwise return the first anchor whose `rates` contain it; otherwise `None`. -/
def find_base_currency (data : RateTable) (currency : String) : Option String :=
  if (dlookup data currency).isSome then some currency
  else scanBase data currency

/-- `find_base_currency_for_currency(data, currency)` (`currency.py` lines
126-147) is verbatim the same algorithm as `find_base_currency`. -/
def find_base_currency_for_currency (data : RateTable) (currency : String) :
    Option String :=
  find_base_currency data currency

/-- `get_exchange_rate(data, from_currency, to_currency)`
(`currency_converter.py` lines 75-113).  Returns `1.0` when the codes are
equal; otherwise resolves `from_currency`'s anchor (the Python
`if not base_currency` also rejects an empty-string anchor, being falsy),
requires the anchor's entry to be a dict with `rates`, requires both codes in
those rates, guards against a zero divisor, and returns
`rates[to] / rates[from]`; every failure returns `None`. -/
def get_exchange_rate (data : RateTable) (from_currency to_currency : String) :
    Option ℚ :=
  if from_currency = to_currency then some 1
  else
    match find_base_currency data from_currency with
    | none => none
    | some base_currency =>
      if base_currency = "" then none
      else
        match dlookup data base_currency with
        | some (JEntry.withRates rates) =>
          match dlookup rates from_currency, dlookup rates to_currency with
          | some from_rate, some to_rate =>
              if from_rate = 0 then none else some (to_rate / from_rate)
          | _, _ => none
        | _ => none

/-- `convert_currency(data, amount, from_currency, to_currency)`
(`currency_converter.py` lines 116-133): look up the exchange rate and
multiply; no validation of `amount` is performed here. -/
def convert_currency (data : RateTable) (amount : ℚ)
    (from_currency to_currency : String) : Option ℚ :=
  match get_exchange_rate data from_currency to_currency with
  | none => none
  | some rate => some (amount * rate)

/-- `get_rates_for_base_currency(data, base_currency)` (`currency.py` lines
150-195): if `base_currency` is a top-level key whose entry is a dict with
`rates`, return those rates directly; otherwise find the anchor containing
`base_currency` (the Python `if not source_base` also rejects an empty-string
anchor) and rebase every rate by dividing by that anchor's rate for
`base_currency`, failing on a zero base rate. -/
def get_rates_for_base_currency (data : RateTable) (base_currency : String) :
    Option (List (String × ℚ)) :=
  match dlookup data base_currency with
  | some (JEntry.withRates rs) => some rs
  | _ =>
    match find_base_currency_for_currency data base_currency with
    | none => none
    | some source_base =>
      if source_base = "" then none
      else
        match dlookup data source_base with
        | some (JEntry.withRates source_rates) =>
          match dlookup source_rates base_currency with
          | none => none
          | some base_rate =>
            if base_rate = 0 then none
            else
              some (source_rates.map (fun p =>
                (p.1, if p.1 = base_currency then 1 else p.2 / base_rate)))
        | _ => none

/-- The response of the external HTTP capability (`requests.get` in
`get_currency_rate`): a status code and a parsed JSON body. -/
structure HttpResponse where
  status_code : Nat
  body : JEntry

/-- `get_currency_rate(currency_code)` (`currency.py` lines 13-22),
parameterized by the HTTP capability: on a non-200 status it returns `None`,
otherwise the parsed response body. -/
def get_currency_rate (http : String → HttpResponse) (currency_code : String) :
    Option JEntry :=
  let response := http currency_code
  if response.status_code ≠ 200 then none
  else some response.body

/-- The configured anchor list `FAVORITE_CURRENCIES` (`currency.py` line 10). -/
def FAVORITE_CURRENCIES : List String := ["USD", "EUR", "GBP", "RUB"]

/-- `update_currency_rates()` (`currency.py` lines 37-43), parameterized by
the HTTP capability and the configured anchor list: builds `all_data` by
storing, for each configured anchor, the fetched entry — which is Python
`None` (JSON `null`) when `get_currency_rate` failed — and returns the
assembled table (it is then passed to `save_to_file`). -/
def update_currency_rates (http : String → HttpResponse)
    (favorite_currencies : List String) : RateTable :=
  favorite_currencies.map (fun currency =>
    (currency, (get_currency_rate http currency).getD JEntry.null))

/-- `is_file_older_than_24_hours(file_path)` (`currency.py` lines 66-91),
parameterized by the probed file-system facts: whether the path exists
(`os.path.exists`), the result of `os.path.getmtime` (`none` models an
exception raised while probing, caught by the `except` branch), and the
current time (`datetime.now()`), both in seconds.  `timedelta(hours=24)` is
86400 seconds and the comparison is strict. -/
def is_file_older_than_24_hours (path_exists : Bool) (getmtime : Option ℚ)
    (now : ℚ) : Bool :=
  if !path_exists then true
  else
    match getmtime with
    | none => true
    | some file_time => decide (now - file_time > (86400 : ℚ))

/-- `save_to_file(data)` (`currency.py` lines 24-35).  File contents are a
character stream.  `open(FILE_NAME, "w")` truncates the file to empty and
`json.dump` then writes the serialized text incrementally; `failAfter = some
k` models an exception raised after `k` characters have been written, which
the `except` branch catches and reports.  The previous file contents are a
parameter only so that properties can speak about them: the write mode
discards them.  Result: the file contents afterwards, and whether an error
was reported (the function returns normally either way). -/
def save_to_file (_previous_contents : List Char) (serialized : List Char)
    (failAfter : Option Nat) : List Char × Bool :=
  match failAfter with
  | none => (serialized, false)
  | some k => (serialized.take k, true)

/-- The spec's sample table
`{"USD": {"rates": {"USD":1.0, "EUR":0.9, "GBP":0.8}}}`. -/
def sampleTable : RateTable :=
  [("USD", JEntry.withRates [("USD", 1), ("EUR", 9/10), ("GBP", 4/5)])]

/-- A table where the codes "X" and "Y" are both present, with nonzero rates,
under each of the two anchors, but the two anchors quote mutually
inconsistent rates. -/
def twoAnchorTable : RateTable :=
  [("X", JEntry.withRates [("X", 1), ("Y", 2)]),
   ("Y", JEntry.withRates [("X", 5), ("Y", 7)])]

/-- A table whose anchor quotes a zero rate for the code "ZRO". -/
def zeroRateTable : RateTable :=
  [("USD", JEntry.withRates [("USD", 1), ("ZRO", 0), ("EUR", 9/10)])]

/-! ## Helper lemmas -/

/-- Does an entry pass the duck-type check and contain the code in its
`rates`?  This is exactly the guard of the scan loop of
`find_base_currency`. -/
def entry_contains (e : JEntry) (c : String) : Bool :=
  match e with
  | JEntry.withRates rs => (dlookup rs c).isSome
  | _ => false

lemma scanBase_eq_none (l : List (String × JEntry)) (c : String)
    (h : ∀ q ∈ l, entry_contains q.2 c = false) : scanBase l c = none := by
  induction l with
  | nil => rfl
  | cons p rest ih =>
    obtain ⟨b, e⟩ := p
    have hp : entry_contains e c = false := h (b, e) (by simp)
    have hr : scanBase rest c = none := ih (fun q hq => h q (by simp [hq]))
    cases e with
    | withRates rs =>
      simp only [entry_contains] at hp
      simp [scanBase, hp, hr]
    | null => simp [scanBase, hr]
    | other => simp [scanBase, hr]

lemma scanBase_append_found (l₁ : List (String × JEntry)) (p : String × JEntry)
    (l₂ : List (String × JEntry)) (c : String)
    (h₁ : ∀ q ∈ l₁, entry_contains q.2 c = false)
    (hp : entry_contains p.2 c = true) :
    scanBase (l₁ ++ p :: l₂) c = some p.1 := by
  induction l₁ with
  | nil =>
    obtain ⟨b, e⟩ := p
    cases e with
    | withRates rs =>
      simp only [entry_contains] at hp
      simp [scanBase, hp]
    | null => simp [entry_contains] at hp
    | other => simp [entry_contains] at hp
  | cons q rest ih =>
    obtain ⟨b, e⟩ := q
    have hq : entry_contains e c = false := h₁ (b, e) (by simp)
    have hr := ih (fun q' hq' => h₁ q' (by simp [hq']))
    cases e with
    | withRates rs =>
      simp only [entry_contains] at hq
      simp [scanBase, hq, hr]
    | null => simp [scanBase, hr]
    | other => simp [scanBase, hr]

/-! ## Claims -/

/-- Claim C9: for every table (including an empty one or one whose entries
lack a `rates` field) and every string `c`, `get_exchange_rate data c c`
returns `1.0` rather than `None`: the equal-codes check precedes any
membership or anchor lookup. -/
theorem C9_equal_codes_short_circuit (data : RateTable) (c : String) :
    get_exchange_rate data c c = some 1 := by
  simp [get_exchange_rate]

/-- Claim C1: `get_exchange_rate` returns `1.0` immediately when the codes
are equal; otherwise it resolves the from-code's anchor and fails when no
anchor is found; when the resolved anchor's entry carries rates holding both
codes (with a nonzero from-rate, as the data model's positive rates
guarantee), it returns `rates[to] / rates[from]`; and it fails when either
code is absent from that single anchor's rate set (no cross-anchor
triangulation). -/
theorem C1_get_exchange_rate_spec (data : RateTable) (fc tc : String) :
    (fc = tc → get_exchange_rate data fc tc = some 1)
  ∧ (fc ≠ tc → find_base_currency data fc = none →
      get_exchange_rate data fc tc = none)
  ∧ (∀ base rates fr tr, fc ≠ tc → find_base_currency data fc = some base →
      base ≠ "" → dlookup data base = some (JEntry.withRates rates) →
      dlookup rates fc = some fr → dlookup rates tc = some tr → fr ≠ 0 →
      get_exchange_rate data fc tc = some (tr / fr))
  ∧ (∀ base rates, fc ≠ tc → find_base_currency data fc = some base →
      base ≠ "" → dlookup data base = some (JEntry.withRates rates) →
      (dlookup rates fc = none ∨ dlookup rates tc = none) →
      get_exchange_rate data fc tc = none) := by
  refine ⟨?_, ?_, ?_, ?_⟩
  · intro h
    simp [get_exchange_rate, h]
  · intro h hf
    simp [get_exchange_rate, h, hf]
  · intro base rates fr tr h hf hb hd hfr htr hz
    simp [get_exchange_rate, h, hf, hb, hd, hfr, htr, hz]
  · intro base rates h hf hb hd hor
    rcases hor with h1 | h1
    · simp [get_exchange_rate, h, hf, hb, hd, h1]
    · cases hfc : dlookup rates fc <;>
        simp [get_exchange_rate, h, hf, hb, hd, h1, hfc]

/-- Witness for C1 on the spec's sample table: `EUR` to `GBP` is
`0.8 / 0.9`. -/
theorem C1_get_exchange_rate_spec_witness :
    get_exchange_rate sampleTable "EUR" "GBP" = some ((4/5) / (9/10)) := by
  refine (C1_get_exchange_rate_spec sampleTable "EUR" "GBP").2.2.1 "USD"
    [("USD", 1), ("EUR", 9/10), ("GBP", 4/5)] (9/10) (4/5)
    (by decide) ?_ (by decide) ?_ ?_ ?_ (by norm_num)
  · rfl
  · rfl
  · rfl
  · rfl

/-- Claim C10: `get_exchange_rate` never divides by zero — when the resolved
anchor's rate for the from-code is `0`, the function returns `None` instead
of dividing. -/
theorem C10_no_zero_division (data : RateTable) (fc tc base : String)
    (rates : List (String × ℚ)) (h : fc ≠ tc)
    (hf : find_base_currency data fc = some base)
    (hd : dlookup data base = some (JEntry.withRates rates))
    (hz : dlookup rates fc = some 0) :
    get_exchange_rate data fc tc = none := by
  by_cases hb : base = ""
  · simp [get_exchange_rate, h, hf, hb]
  · cases htc : dlookup rates tc <;>
      simp [get_exchange_rate, h, hf, hb, hd, hz, htc]

/-- Witness for C10 on a table quoting a zero rate for the code `ZRO`. -/
theorem C10_no_zero_division_witness :
    get_exchange_rate zeroRateTable "ZRO" "EUR" = none := by
  refine C10_no_zero_division zeroRateTable "ZRO" "EUR" "USD"
    [("USD", 1), ("ZRO", 0), ("EUR", 9/10)] (by decide) ?_ ?_ ?_
  · rfl
  · rfl
  · rfl

/-- Claim C8: `find_base_currency` returns the code itself when it is a
top-level key of the table; otherwise the first anchor, in table iteration
order, whose rates contain the code; and `None` when no anchor's rates
contain it. -/
theorem C8_find_anchor_spec (data : RateTable) (code : String) :
    ((dlookup data code).isSome → find_base_currency data code = some code)
  ∧ (∀ l₁ p l₂, dlookup data code = none → data = l₁ ++ p :: l₂ →
      (∀ q ∈ l₁, entry_contains q.2 code = false) →
      entry_contains p.2 code = true →
      find_base_currency data code = some p.1)
  ∧ (dlookup data code = none →
      (∀ q ∈ data, entry_contains q.2 code = false) →
      find_base_currency data code = none) := by
  refine ⟨?_, ?_, ?_⟩
  · intro h
    simp [find_base_currency, h]
  · intro l₁ p l₂ hnone hsplit h₁ hp
    subst hsplit
    simp [find_base_currency, hnone, scanBase_append_found l₁ p l₂ code h₁ hp]
  · intro hnone hall
    simp [find_base_currency, hnone, scanBase_eq_none data code hall]

/-- Witness for C8 on the sample table: `EUR` is not a top-level key and is
found under the first (and only) anchor `USD`. -/
theorem C8_find_anchor_spec_witness :
    find_base_currency sampleTable "EUR" = some "USD" := by
  refine (C8_find_anchor_spec sampleTable "EUR").2.1 []
    ("USD", JEntry.withRates [("USD", 1), ("EUR", 9/10), ("GBP", 4/5)]) []
    ?_ ?_ ?_ ?_
  · rfl
  · rfl
  · intro q hq
    simp at hq
  · rfl

lemma dlookup_rebase (rs : List (String × ℚ)) (base : String) (b : ℚ)
    (k : String) :
    dlookup (rs.map (fun p => (p.1, if p.1 = base then 1 else p.2 / b))) k
      = (dlookup rs k).map (fun v => if k = base then 1 else v / b) := by
  induction rs with
  | nil => rfl
  | cons p rest ih =>
    obtain ⟨k₂, v⟩ := p
    by_cases h : k₂ = k
    · subst h
      simp [dlookup]
    · simp [dlookup, h, ih]

/-- Claim C2: `get_rates_for_base_currency` returns the anchor's rates map
directly when the requested code is a top-level anchor with rates; otherwise,
with the anchor containing the code resolved and its rate `b` for the code
read, it fails when `b = 0` and otherwise rebases every rate to `rate / b`
with the requested code mapping to exactly `1.0`; on the spec's sample table
the rates relative to `EUR` are `USD ↦ 1/0.9`, `EUR ↦ 1`, `GBP ↦ 0.8/0.9`. -/
theorem C2_rates_relative_to_spec :
    (∀ data base rs, dlookup data base = some (JEntry.withRates rs) →
        get_rates_for_base_currency data base = some rs)
  ∧ (∀ data base a rs b,
        (∀ rs₀, dlookup data base ≠ some (JEntry.withRates rs₀)) →
        find_base_currency_for_currency data base = some a → a ≠ "" →
        dlookup data a = some (JEntry.withRates rs) →
        dlookup rs base = some b →
        ((b = 0 → get_rates_for_base_currency data base = none)
          ∧ (b ≠ 0 →
              get_rates_for_base_currency data base
                = some (rs.map (fun p =>
                    (p.1, if p.1 = base then 1 else p.2 / b)))
            ∧ (get_rates_for_base_currency data base).bind
                  (fun m => dlookup m base) = some 1)))
  ∧ get_rates_for_base_currency sampleTable "EUR"
      = some [("USD", 10/9), ("EUR", 1), ("GBP", 8/9)] := by
  refine ⟨?_, ?_, ?_⟩
  · intro data base rs h
    simp [get_rates_for_base_currency, h]
  · intro data base a rs b h0 hfind ha hda hb
    have hstep : get_rates_for_base_currency data base =
        (if b = 0 then none
         else some (rs.map (fun p =>
            (p.1, if p.1 = base then 1 else p.2 / b)))) := by
      cases hdb : dlookup data base with
      | none => simp [get_rates_for_base_currency, hdb, hfind, ha, hda, hb]
      | some e =>
        cases e with
        | withRates rs₀ => exact absurd hdb (h0 rs₀)
        | null => simp [get_rates_for_base_currency, hdb, hfind, ha, hda, hb]
        | other => simp [get_rates_for_base_currency, hdb, hfind, ha, hda, hb]
    constructor
    · intro hb0
      simp [hstep, hb0]
    · intro hb0
      have hres : get_rates_for_base_currency data base
          = some (rs.map (fun p =>
              (p.1, if p.1 = base then 1 else p.2 / b))) := by
        simp [hstep, hb0]
      refine ⟨hres, ?_⟩
      rw [hres]
      simp [dlookup_rebase, hb]
  · simp [get_rates_for_base_currency, find_base_currency_for_currency,
      find_base_currency, scanBase, dlookup, sampleTable]
    norm_num

/-- Witness for C2 on the sample table, through the non-anchor branch of the
theorem: `EUR` is rebased from the `USD` anchor with `b = 0.9`. -/
theorem C2_rates_relative_to_spec_witness :
    get_rates_for_base_currency sampleTable "EUR"
      = some ([("USD", (1 : ℚ)), ("EUR", 9/10), ("GBP", 4/5)].map (fun p =>
          (p.1, if p.1 = "EUR" then 1 else p.2 / (9/10)))) := by
  refine ((C2_rates_relative_to_spec.2.1 sampleTable "EUR" "USD"
    [("USD", 1), ("EUR", 9/10), ("GBP", 4/5)] (9/10)
    ?_ ?_ (by decide) ?_ ?_).2 (by norm_num)).1
  · intro rs₀
    simp [dlookup, sampleTable]
  · rfl
  · rfl
  · rfl

/-- Claim C3 counterexample: `convert_currency` applied to the negative
amount `-5` does not fail — it consults the resolver and multiplies the
amount by the returned rate. -/
theorem C3_counterexample :
    convert_currency sampleTable (-5) "EUR" "GBP" = some (-40/9)
    ∧ get_exchange_rate sampleTable "EUR" "GBP" = some (8/9) := by
  constructor
  · simp [convert_currency, get_exchange_rate, find_base_currency, scanBase,
      dlookup, sampleTable]
    norm_num
  · simp [get_exchange_rate, find_base_currency, scanBase, dlookup,
      sampleTable]
    norm_num

/-- Claim C3 amended: for every negative amount, `convert_currency` performs
no validation — it consults the resolver and returns
`amount * get_exchange_rate`, propagating only the resolver's `None`; the
negative-amount rejection happens in the console interface before
`convert_currency` is ever called. -/
theorem C3_amended_negative_amount_passthrough (data : RateTable)
    (amount : ℚ) (fc tc : String) (h : amount < 0) :
    convert_currency data amount fc tc
      = (get_exchange_rate data fc tc).map (fun r => amount * r) := by
  cases hr : get_exchange_rate data fc tc <;> simp [convert_currency, hr]

/-- Witness for amended C3 at the negative amount `-5` on the sample
table. -/
theorem C3_amended_negative_amount_passthrough_witness :
    convert_currency sampleTable (-5) "EUR" "GBP"
      = (get_exchange_rate sampleTable "EUR" "GBP").map (fun r => -5 * r) :=
  C3_amended_negative_amount_passthrough sampleTable (-5) "EUR" "GBP"
    (by norm_num)

/-- Claim C4: `update_currency_rates` assembles a table with an entry for
every configured anchor, in order; an anchor whose fetch fails (non-200
status) gets a `null` entry, while every anchor whose fetch succeeds still
gets its fetched body — a failed fetch never aborts the refresh. -/
theorem C4_refresh_spec (http : String → HttpResponse)
    (codes : List String) :
    (update_currency_rates http codes).map Prod.fst = codes
  ∧ (∀ c, c ∈ codes → (http c).status_code ≠ 200 →
      (c, JEntry.null) ∈ update_currency_rates http codes)
  ∧ (∀ c, c ∈ codes → (http c).status_code = 200 →
      (c, (http c).body) ∈ update_currency_rates http codes) := by
  refine ⟨?_, ?_, ?_⟩
  · simp [update_currency_rates, List.map_map, Function.comp_def]
  · intro c hc hfail
    simp only [update_currency_rates, List.mem_map]
    exact ⟨c, hc, by simp [get_currency_rate, hfail]⟩
  · intro c hc hok
    simp only [update_currency_rates, List.mem_map]
    exact ⟨c, hc, by simp [get_currency_rate, hok]⟩

/-- A concrete HTTP capability for the C4 witness: the fetch for `EUR`
fails with status 500, every other fetch succeeds. -/
def sampleHttpFetch : String → HttpResponse := fun c =>
  if c = "EUR" then ⟨500, JEntry.other⟩
  else ⟨200, JEntry.withRates [("USD", 1)]⟩

/-- Witness for C4 with the configured anchor list and a capability whose
`EUR` fetch fails: the table still covers all four anchors, `EUR` gets a
`null` entry, and `USD` keeps its fetched entry. -/
theorem C4_refresh_spec_witness :
    (update_currency_rates sampleHttpFetch FAVORITE_CURRENCIES).map Prod.fst
        = FAVORITE_CURRENCIES
    ∧ ("EUR", JEntry.null)
        ∈ update_currency_rates sampleHttpFetch FAVORITE_CURRENCIES
    ∧ ("USD", JEntry.withRates [("USD", 1)])
        ∈ update_currency_rates sampleHttpFetch FAVORITE_CURRENCIES := by
  obtain ⟨h1, h2, h3⟩ := C4_refresh_spec sampleHttpFetch FAVORITE_CURRENCIES
  refine ⟨h1, h2 "EUR" (by decide) (by decide), ?_⟩
  have h4 := h3 "USD" (by decide) (by decide)
  simpa [sampleHttpFetch] using h4

/-- Claim C5 counterexample: on a table whose two anchors each quote both
codes `X` and `Y` with nonzero rates, but with mutually inconsistent values,
the first-match rule resolves `X` and `Y` to different anchors and the
round-trip product is `2 * (5/7) = 10/7 ≠ 1`. -/
theorem C5_counterexample :
    get_exchange_rate twoAnchorTable "X" "Y" = some 2
    ∧ get_exchange_rate twoAnchorTable "Y" "X" = some (5/7)
    ∧ ¬ ∃ r s : ℚ, get_exchange_rate twoAnchorTable "X" "Y" = some r
        ∧ get_exchange_rate twoAnchorTable "Y" "X" = some s
        ∧ r * s = 1 := by
  have hxy : get_exchange_rate twoAnchorTable "X" "Y" = some 2 := by
    simp [get_exchange_rate, find_base_currency, scanBase, dlookup,
      twoAnchorTable]
  have hyx : get_exchange_rate twoAnchorTable "Y" "X" = some (5/7) := by
    simp [get_exchange_rate, find_base_currency, scanBase, dlookup,
      twoAnchorTable]
  refine ⟨hxy, hyx, ?_⟩
  rintro ⟨r, s, hr, hs, hrs⟩
  rw [hxy] at hr
  rw [hyx] at hs
  rw [Option.some_inj] at hr hs
  rw [← hr, ← hs] at hrs
  norm_num at hrs

/-- Claim C5 amended: the reciprocal identity holds exactly over rational
arithmetic when `find_base_currency` resolves *both* codes to the *same*
anchor and that anchor's rates for the two codes are nonzero; it can fail
when the first-match rule chooses different anchors for the two codes. -/
theorem C5_amended_reciprocal (data : RateTable) (x y a : String)
    (rs : List (String × ℚ)) (rx ry : ℚ) (hxy : x ≠ y)
    (hx : find_base_currency data x = some a)
    (hy : find_base_currency data y = some a)
    (ha : a ≠ "")
    (hd : dlookup data a = some (JEntry.withRates rs))
    (hrx : dlookup rs x = some rx) (hrx0 : rx ≠ 0)
    (hry : dlookup rs y = some ry) (hry0 : ry ≠ 0) :
    get_exchange_rate data x y = some (ry / rx)
    ∧ get_exchange_rate data y x = some (rx / ry)
    ∧ (ry / rx) * (rx / ry) = 1 := by
  refine ⟨?_, ?_, ?_⟩
  · simp [get_exchange_rate, hxy, hx, ha, hd, hrx, hry, hrx0]
  · simp [get_exchange_rate, Ne.symm hxy, hy, ha, hd, hrx, hry, hry0]
  · field_simp

/-- Witness for amended C5 on the sample table: `EUR` and `GBP` both resolve
to the anchor `USD` and the round-trip product is exactly `1`. -/
theorem C5_amended_reciprocal_witness :
    get_exchange_rate sampleTable "EUR" "GBP" = some ((4/5) / (9/10))
    ∧ get_exchange_rate sampleTable "GBP" "EUR" = some ((9/10) / (4/5))
    ∧ ((4/5 : ℚ) / (9/10)) * ((9/10) / (4/5)) = 1 := by
  refine C5_amended_reciprocal sampleTable "EUR" "GBP" "USD"
    [("USD", 1), ("EUR", 9/10), ("GBP", 4/5)] (9/10) (4/5)
    (by decide) ?_ ?_ (by decide) ?_ ?_ (by norm_num) ?_ (by norm_num)
  · rfl
  · rfl
  · rfl
  · rfl
  · rfl

/-- Claim C6: `is_file_older_than_24_hours` returns `true` when the file is
absent, `true` when probing its age raises an I/O error (fail-open toward
refreshing), `true` when the last-modified timestamp is more than 24 hours
(86400 seconds) in the past, and `false` for a file modified within the last
24 hours. -/
theorem C6_is_stale_spec :
    (∀ getmtime now, is_file_older_than_24_hours false getmtime now = true)
  ∧ (∀ now, is_file_older_than_24_hours true none now = true)
  ∧ (∀ t now : ℚ, now - t > 86400 →
      is_file_older_than_24_hours true (some t) now = true)
  ∧ (∀ t now : ℚ, 0 ≤ now - t → now - t ≤ 86400 →
      is_file_older_than_24_hours true (some t) now = false) := by
  refine ⟨?_, ?_, ?_, ?_⟩
  · intro getmtime now
    simp [is_file_older_than_24_hours]
  · intro now
    simp [is_file_older_than_24_hours]
  · intro t now h
    simp [is_file_older_than_24_hours]
    exact h
  · intro t now h1 h2
    simp [is_file_older_than_24_hours]
    linarith

/-- Witness for C6: a file last modified 25 hours ago is stale, one modified
one minute ago is not. -/
theorem C6_is_stale_spec_witness :
    is_file_older_than_24_hours true (some 0) 90000 = true
    ∧ is_file_older_than_24_hours true (some 86340) 86400 = false := by
  obtain ⟨-, -, h3, h4⟩ := C6_is_stale_spec
  exact ⟨h3 0 90000 (by norm_num), h4 86340 86400 (by norm_num) (by norm_num)⟩

/-- Claim C7 counterexample: `save_to_file` is not atomic.  Writing the
serialized snapshot `NEW` over previous contents `OLD` with a failure after
one character reports the error but leaves the file holding `N` — neither
the previous contents nor the full snapshot, i.e. the previous contents are
lost to a partial overwrite. -/
theorem C7_counterexample :
    (save_to_file ['O', 'L', 'D'] ['N', 'E', 'W'] (some 1)).2 = true
    ∧ (save_to_file ['O', 'L', 'D'] ['N', 'E', 'W'] (some 1)).1
        ≠ ['O', 'L', 'D']
    ∧ (save_to_file ['O', 'L', 'D'] ['N', 'E', 'W'] (some 1)).1
        ≠ ['N', 'E', 'W'] := by
  refine ⟨rfl, ?_, ?_⟩ <;> decide

/-- Claim C7 amended: `save_to_file` writes the full snapshot when no error
occurs; a failed write is caught and reported rather than raised to the
caller (the function returns normally, so the caller's in-memory table
survives), but it is not atomic — the file is left holding only the prefix
of the new serialized data written before the failure, the previous contents
having been truncated away. -/
theorem C7_amended_save_spec (previous serialized : List Char) :
    save_to_file previous serialized none = (serialized, false)
  ∧ (∀ k, (save_to_file previous serialized (some k)).2 = true
      ∧ (save_to_file previous serialized (some k)).1 = serialized.take k) := by
  exact ⟨rfl, fun k => ⟨rfl, rfl⟩⟩

end ExchangeRate
